import Mathlib

/-!
Shallow embedding of the correlation/detection engine of the soac-framework
repository (files `backend/app/detection/detection_engine.py` and
`backend/app/detection/event_processor.py`), together with theorems settling
the specification claims about it.

Python dictionaries are modelled as insertion-ordered association lists with
unique keys (lookup returns the first binding); Python values that can be a
string or a nested dict are modelled by the inductive `PyVal`; wall-clock
instants (`datetime.utcnow()`) are modelled as integers on one common
timeline measured in microseconds (the resolution of Python `datetime`), so
that `timedelta(minutes=w)` is subtraction of `w * 60000000`.
-/

set_option maxRecDepth 4000

namespace Soac

/-! ### Association lists (Python dict model) -/

/-- First binding of key `k` (Python `d[k]` / `k in d`). -/
def lookupA {α : Type} (m : List (String × α)) (k : String) : Option α :=
  match m with
  | [] => none
  | (k₁, v) :: t => if k₁ == k then some v else lookupA t k

/-- Python `d.get(k, dflt)`. -/
def getDefA {α : Type} (m : List (String × α)) (k : String) (d : α) : α :=
  (lookupA m k).getD d

/-- Python `d[k] = v`: update in place if present, else append (insertion order). -/
def setA {α : Type} (m : List (String × α)) (k : String) (v : α) : List (String × α) :=
  match m with
  | [] => [(k, v)]
  | (k₁, v₁) :: t => if k₁ == k then (k₁, v) :: t else (k₁, v₁) :: setA t k v

/-- Apply `f` to the value stored under `k`, if any (no insertion). -/
def modifyA {α : Type} (m : List (String × α)) (k : String) (f : α → α) : List (String × α) :=
  match m with
  | [] => []
  | (k₁, v) :: t => if k₁ == k then (k₁, f v) :: t else (k₁, v) :: modifyA t k f

/-- Python `del d[k]` (keys are unique in a dict, so removing the first
binding removes the key). -/
def eraseA {α : Type} (m : List (String × α)) (k : String) : List (String × α) :=
  match m with
  | [] => []
  | (k₁, v) :: t => if k₁ == k then t else (k₁, v) :: eraseA t k

theorem lookupA_setA_self {α : Type} (m : List (String × α)) (k : String) (v : α) :
    lookupA (setA m k v) k = some v := by
  induction m with
  | nil => simp [setA, lookupA]
  | cons p t ih =>
    obtain ⟨k₁, v₁⟩ := p
    by_cases h : k₁ == k
    · simp [setA, lookupA, h]
    · simp only [setA, lookupA, h, if_false, Bool.false_eq_true, ite_false]
      exact ih

theorem lookupA_setA_ne {α : Type} (m : List (String × α)) (k k₂ : String) (v : α)
    (h : k ≠ k₂) : lookupA (setA m k v) k₂ = lookupA m k₂ := by
  induction m with
  | nil =>
    simp only [setA, lookupA]
    have : (k == k₂) = false := by simp [h]
    simp [this]
  | cons p t ih =>
    obtain ⟨k₁, v₁⟩ := p
    by_cases h₁ : k₁ == k
    · have hk : k₁ = k := by simpa using h₁
      subst hk
      have : (k₁ == k₂) = false := by simp [h]
      simp [setA, lookupA, this]
    · simp only [setA, lookupA, h₁, Bool.false_eq_true, ite_false]
      by_cases h₂ : k₁ == k₂
      · simp [lookupA, h₂]
      · simp only [lookupA, h₂, Bool.false_eq_true, ite_false]
        exact ih

theorem lookupA_modifyA_self {α : Type} (m : List (String × α)) (k : String) (f : α → α) :
    lookupA (modifyA m k f) k = (lookupA m k).map f := by
  induction m with
  | nil => simp [modifyA, lookupA]
  | cons p t ih =>
    obtain ⟨k₁, v₁⟩ := p
    by_cases h : k₁ == k
    · simp [modifyA, lookupA, h]
    · simp only [modifyA, lookupA, h, Bool.false_eq_true, ite_false]
      exact ih

theorem lookupA_modifyA_ne {α : Type} (m : List (String × α)) (k k₂ : String) (f : α → α)
    (h : k ≠ k₂) : lookupA (modifyA m k f) k₂ = lookupA m k₂ := by
  induction m with
  | nil => simp [modifyA]
  | cons p t ih =>
    obtain ⟨k₁, v₁⟩ := p
    by_cases h₁ : k₁ == k
    · have hk : k₁ = k := by simpa using h₁
      subst hk
      have : (k₁ == k₂) = false := by simp [h]
      simp [modifyA, lookupA, h₁, this]
    · simp only [modifyA, lookupA, h₁, Bool.false_eq_true, ite_false]
      by_cases h₂ : k₁ == k₂
      · simp [lookupA, h₂]
      · simp only [lookupA, h₂, Bool.false_eq_true, ite_false]
        exact ih

theorem lookupA_eraseA_ne {α : Type} (m : List (String × α)) (k k₂ : String)
    (h : k ≠ k₂) : lookupA (eraseA m k) k₂ = lookupA m k₂ := by
  induction m with
  | nil => simp [eraseA]
  | cons p t ih =>
    obtain ⟨k₁, v₁⟩ := p
    by_cases h₁ : k₁ == k
    · have hk : k₁ = k := by simpa using h₁
      subst hk
      have : (k₁ == k₂) = false := by simp [h]
      simp [eraseA, lookupA, h₁, this]
    · simp only [eraseA, lookupA, h₁, Bool.false_eq_true, ite_false]
      by_cases h₂ : k₁ == k₂
      · simp [lookupA, h₂]
      · simp only [lookupA, h₂, Bool.false_eq_true, ite_false]
        exact ih

theorem lookupA_of_not_mem_keys {α : Type} (m : List (String × α)) (k : String)
    (h : k ∉ m.map Prod.fst) : lookupA m k = none := by
  induction m with
  | nil => simp [lookupA]
  | cons p t ih =>
    obtain ⟨k₁, v₁⟩ := p
    simp only [List.map_cons, List.mem_cons, not_or] at h
    have : (k₁ == k) = false := by simp [Ne.symm h.1]
    simp only [lookupA, this, Bool.false_eq_true, ite_false]
    exact ih h.2

theorem lookupA_eraseA_self {α : Type} (m : List (String × α)) (k : String)
    (hnd : (m.map Prod.fst).Nodup) : lookupA (eraseA m k) k = none := by
  induction m with
  | nil => simp [eraseA, lookupA]
  | cons p t ih =>
    obtain ⟨k₁, v₁⟩ := p
    simp only [List.map_cons, List.nodup_cons] at hnd
    by_cases h₁ : k₁ == k
    · have hk : k₁ = k := by simpa using h₁
      subst hk
      simp only [eraseA, h₁, if_true]
      exact lookupA_of_not_mem_keys t k₁ hnd.1
    · simp only [eraseA, lookupA, h₁, Bool.false_eq_true, ite_false]
      exact ih hnd.2

/-! ### String helpers (Python string operations, ASCII fragment) -/

/-- Python `str.lower()` for one character (the engine only meets ASCII data). -/
def asciiLower (c : Char) : Char :=
  if 65 ≤ c.toNat && c.toNat ≤ 90 then Char.ofNat (c.toNat + 32) else c

/-- Python `s.lower()`. -/
def pyLower (s : String) : String := ⟨s.data.map asciiLower⟩

/-- Python `s.strip()`. -/
def pyStrip (s : String) : String :=
  ⟨((s.data.dropWhile Char.isWhitespace).reverse.dropWhile Char.isWhitespace).reverse⟩

/-- `listPrefix needle hay`: `needle` is a prefix of `hay`. -/
def listPrefix : List Char → List Char → Bool
  | [], _ => true
  | _ :: _, [] => false
  | n :: ns, h :: hs => n == h && listPrefix ns hs

/-- `listInfixOf needle hay`: `needle` occurs contiguously inside `hay`. -/
def listInfixOf (ns : List Char) : List Char → Bool
  | [] => ns.isEmpty
  | h :: hs => listPrefix ns (h :: hs) || listInfixOf ns hs

/-- Python `needle in hay` on strings. -/
def strContains (hay needle : String) : Bool := listInfixOf needle.data hay.data

/-- Python `s.split('_')[0]`: the part before the first underscore. -/
def underscoreHead (s : String) : String :=
  ⟨s.data.takeWhile (fun c => !(c == '_'))⟩

/-- Python `s.split()[0]`: first whitespace-separated token.  (Python raises
`IndexError` on an all-whitespace string; the engine only reaches this call
when `s` contains a vendor keyword, hence a token; we return `""` there.) -/
def wsFirstToken (s : String) : String :=
  ⟨(s.data.dropWhile Char.isWhitespace).takeWhile (fun c => !c.isWhitespace)⟩

/-- Numeric value of a digit run. -/
def digitsToNat (ds : List Char) : Nat :=
  ds.foldl (fun a c => 10 * a + (c.toNat - 48)) 0

/-- Helper for `allNumbers`: `acc` holds the current digit run, reversed. -/
def allNumbersAux : List Char → List Char → List Nat
  | [], acc => if acc.isEmpty then [] else [digitsToNat acc.reverse]
  | c :: cs, acc =>
    if c.isDigit then allNumbersAux cs (c :: acc)
    else if acc.isEmpty then allNumbersAux cs []
    else digitsToNat acc.reverse :: allNumbersAux cs []

/-- Python `re.findall(r'\d+', s)` as numbers: every maximal digit run. -/
def allNumbers (s : List Char) : List Nat := allNumbersAux s []

/-- Python `re.search(r'(\d+)', s)`: the first maximal digit run, if any. -/
def firstNumber (s : List Char) : Option Nat := (allNumbers s).head?

/-! ### Python values

A raw or normalized event field value: a string or a nested dict.  (Scalar
non-string values such as numbers or datetimes do not influence any claim;
they are represented by their `str()` form.) -/

inductive PyVal : Type where
  | str : String → PyVal
  | dict : List (String × PyVal) → PyVal

mutual

/-- Python `repr(v)` (as used by `str(dict)` / `str(dict_values)`). -/
def pyRepr : PyVal → String
  | .str s => "\x27" ++ s ++ "\x27"
  | .dict d => "\x7b" ++ String.intercalate ", " (pyReprEntries d) ++ "\x7d"

/-- `repr` of the entries of a dict. -/
def pyReprEntries : List (String × PyVal) → List String
  | [] => []
  | (k, v) :: t => ("\x27" ++ k ++ "\x27: " ++ pyRepr v) :: pyReprEntries t

end

/-- Python `str(v)`. -/
def pyStr : PyVal → String
  | .str s => s
  | .dict d => pyRepr (.dict d)

/-- Python truthiness of a value (`if v:`): non-empty string / non-empty dict. -/
def pyTruthy : PyVal → Bool
  | .str s => !s.isEmpty
  | .dict d => !d.isEmpty

/-- An event dictionary (raw or normalized). -/
abbrev Event := List (String × PyVal)

/-- Python `str(event.values())`: `dict_values([repr, repr, ...])`. -/
def dictValuesStr (e : Event) : String :=
  "dict_values([" ++ String.intercalate ", " (e.map (fun p => pyRepr p.2)) ++ "])"

/-- Python `event.get(k)` filtered through `or`-chaining truthiness:
`some v` iff the key is present with a truthy value. -/
def getTruthy (e : Event) (k : String) : Option PyVal :=
  match lookupA e k with
  | some v => if pyTruthy v then some v else none
  | none => none

/-- Python `str(event.get(k, d))` where `d` is a plain string default. -/
def pyGetStrD (e : Event) (k d : String) : String :=
  match lookupA e k with
  | some v => pyStr v
  | none => d

/-! ### `DetectionEngine._parse_time_window` -/

/-- `DetectionEngine._parse_time_window`: last number of the lowered/stripped
window string, with a unit heuristic; `60` when no number is present. -/
def parse_time_window (window_str : String) : Nat :=
  let s := pyStrip (pyLower window_str)
  match (allNumbers s.data).getLast? with
  | none => 60
  | some value =>
    if strContains s "hour" || strContains s "h" then value * 60
    else if strContains s "minute" || strContains s "m" then value
    else if strContains s "second" || strContains s "s" then max 1 (value / 60)
    else value

/-! ### Data model of the detection engine

A `Phase` holds the results of `phase.get("name", "")`, `phase.get("source",
"")` and `phase.get("indicators", "")`; a `Model` holds `model["id"]`,
`model["name"]`, `correlation_pattern.get("phases", [])`,
`correlation_pattern.get("correlation_window", "60 minutes")`,
`alert_policy.get("trigger_condition", "")` and
`alert_policy.get("severity", "High")`, i.e. the already-defaulted dict
accesses the engine performs on a loaded operational model. -/

structure Phase where
  name : String
  source : String
  indicators : String
deriving DecidableEq

structure Model where
  id : String
  name : String
  phases : List Phase
  correlation_window : String
  trigger_condition : String
  severity : String

/-- One recorded phase occurrence:
`{"event": event, "timestamp": datetime.utcnow(), "phase": name}`. -/
structure Occ where
  event : Event
  timestamp : ℤ
  phase : String

/-- `entity_state[entity_key][model_id]`: phase name → occurrences. -/
abbrev PhaseMap := List (String × List Occ)

/-- `entity_state[entity_key]`: model id → phase map. -/
abbrev ModelMap := List (String × PhaseMap)

/-- `DetectionEngine.entity_state` (a nested `defaultdict`). -/
abbrev EntityState := List (String × ModelMap)

/-- `entity_state[ek][mid]` with the `defaultdict` read-only semantics of the
`in`-guarded accesses (missing levels read as empty). -/
def phaseMapAt (st : EntityState) (ek mid : String) : PhaseMap :=
  getDefA (getDefA st ek []) mid []

/-- `entity_state[ek][mid][pn]`, read-only. -/
def occsAt (st : EntityState) (ek mid pn : String) : List Occ :=
  getDefA (phaseMapAt st ek mid) pn []

/-- `self.entity_state[ek][mid][pn].append(o)` with `defaultdict` lazy
creation of the missing levels. -/
def record_occurrence (st : EntityState) (ek mid pn : String) (o : Occ) : EntityState :=
  let mm := getDefA st ek []
  let pm := getDefA mm mid []
  let occs := getDefA pm pn []
  setA st ek (setA mm mid (setA pm pn (occs ++ [o])))

/-- One minute of the microsecond timeline (`timedelta(minutes=1)`). -/
def usPerMinute : ℤ := 60000000

/-- The pruning filter of `_clean_old_events`:
keep `e` iff `e["timestamp"] > cutoff_time`. -/
def prunePhaseMap (pm : PhaseMap) (cutoff : ℤ) : PhaseMap :=
  pm.map (fun p => (p.1, p.2.filter (fun o => decide (cutoff < o.timestamp))))

/-- `DetectionEngine._clean_old_events` (the caller passes
`correlation_pattern.get("correlation_window", "60 minutes")`). -/
def clean_old_events (st : EntityState) (ek mid : String) (window_str : String)
    (now : ℤ) : EntityState :=
  match lookupA st ek with
  | none => st
  | some mm =>
    match lookupA mm mid with
    | none => st
    | some _ =>
      modifyA st ek (fun mm₁ => modifyA mm₁ mid
        (fun pm => prunePhaseMap pm (now - (parse_time_window window_str : ℤ) * usPerMinute)))

/-! ### `DetectionEngine._extract_entity_key` -/

/-- `DetectionEngine._extract_entity_key`.  The `or`-chains use Python
truthiness; the `ip` part is only added when neither `username` nor
`computer` resolved; the fallback uses `event.get("event_id", "unknown")`. -/
def extract_entity_key (event : Event) : String :=
  let username := getTruthy event "UserName" <|> getTruthy event "UserPrincipalName" <|>
    getTruthy event "user"
  let computer := getTruthy event "ComputerName" <|> getTruthy event "hostname" <|>
    getTruthy event "host"
  let ip := getTruthy event "aip" <|> getTruthy event "RemoteAddressIP4" <|>
    getTruthy event "ip"
  let parts : List String :=
    (match username with | some u => ["user:" ++ pyStr u] | none => []) ++
    (match computer with | some c => ["host:" ++ pyStr c] | none => []) ++
    (match ip, username, computer with
     | some i, none, none => ["ip:" ++ pyStr i]
     | _, _, _ => [])
  let parts := if parts.isEmpty then ["event:" ++ pyGetStrD event "event_id" "unknown"] else parts
  String.intercalate "|" parts

/-! ### `DetectionEngine._match_phase` -/

/-- The vendor substrings tested on both the event source and the phase
source. -/
def vendorKeywords : List String := ["falcon", "paloalto", "entraid", "umbrella", "proofpoint"]

/-- The source-family criterion of `_match_phase` (both arguments already
lower-cased by the caller, as in the Python code). -/
def source_match (source phase_source : String) : Bool :=
  if !source.isEmpty then
    if vendorKeywords.any (fun s => strContains source s) then
      if vendorKeywords.any (fun s => strContains phase_source s) then
        strContains phase_source (underscoreHead source) ||
          strContains source (wsFirstToken phase_source)
      else false
    else false
  else false

/-- The fixed indicator vocabulary of `_match_phase` (note that
`"dataStaged"` is checked against a lower-cased haystack, exactly as in the
source). -/
def indicatorKeywords : List String :=
  ["powershell", "cmd.exe", "wscript", "rundll32",
   "processrollup", "filewrite", "dataStaged",
   "networkconnect", "remoteaddress", "putobject",
   "authentication", "login", "signin",
   "upload", "download", "transfer"]

/-- The indicator criterion of `_match_phase`: only consulted when the phase
declares indicators, and then scans `str(event.values()).lower()`. -/
def indicator_match (valuesLower phase_indicators : String) : Bool :=
  if !phase_indicators.isEmpty then
    indicatorKeywords.any (fun kw => strContains valuesLower kw)
  else false

/-- The `phase_keywords` table of `_match_phase`. -/
def phaseKeywordTable : List (String × List String) :=
  [("delivery", ["email", "attachment", "proofpoint"]),
   ("execution", ["process", "cmd", "powershell", "script"]),
   ("network", ["connection", "outbound", "remote", "c2"]),
   ("persistence", ["filewrite", "service", "startup", "registry"]),
   ("staging", ["zip", "rar", "archive", "staged"]),
   ("transfer", ["upload", "download", "exfil"]),
   ("authentication", ["login", "auth", "signin", "mfa"]),
   ("privilege", ["admin", "elevate", "privilege"]),
   ("lateral", ["smb", "rdp", "wmi", "movement"]),
   ("discovery", ["recon", "whoami", "ipconfig", "enum"])]

/-- The phase-name-keyword criterion of `_match_phase`. -/
def phase_keyword_match (valuesLower phase_name : String) : Bool :=
  phaseKeywordTable.any
    (fun g => strContains phase_name g.1 && g.2.any (fun kw => strContains valuesLower kw))

/-- The per-phase test of `_match_phase`:
`source_match or indicator_match or phase_keyword_match`. -/
def phaseCriteria (event : Event) (phase : Phase) : Bool :=
  let source := pyLower (pyGetStrD event "source" "")
  let valuesLower := pyLower (dictValuesStr event)
  source_match source (pyLower phase.source) ||
    indicator_match valuesLower (pyLower phase.indicators) ||
    phase_keyword_match valuesLower (pyLower phase.name)

/-- `DetectionEngine._match_phase`: iterate the phases in order and `return`
the first one whose criteria hold (`None` otherwise). -/
def match_phase (event : Event) : List Phase → Option Phase
  | [] => none
  | phase :: rest => if phaseCriteria event phase then some phase else match_phase event rest

/-! ### `DetectionEngine._check_incident_threshold` -/

/-- `re.search(r'(\d+)', trigger)` with the `else 3` fallback. -/
def patternThreshold (m : Model) : Nat :=
  (firstNumber m.trigger_condition.data).getD 3

/-- The loop of `_check_incident_threshold` collecting phases with a
non-empty occurrence list (in dict insertion order). -/
def matchedPhaseEntries (st : EntityState) (ek mid : String) : PhaseMap :=
  (phaseMapAt st ek mid).filter (fun p => !p.2.isEmpty)

/-- `len(phases_matched)`. -/
def numMatchedPhases (st : EntityState) (ek mid : String) : Nat :=
  (matchedPhaseEntries st ek mid).length

/-- `(len(phases_matched) / total_phases) * 100 if total_phases > 0 else 0`. -/
def confidencePct (st : EntityState) (ek mid : String) (m : Model) : ℚ :=
  if 0 < m.phases.length then
    ((numMatchedPhases st ek mid : ℚ) / (m.phases.length : ℚ)) * 100
  else 0

/-- The high/medium/low bucketing of the confidence percentage. -/
def confidenceBucket (pct : ℚ) : String :=
  if 80 ≤ pct then "high" else if 50 ≤ pct then "medium" else "low"

/-- The synthesized incident record (`incident_data`).  The random
`incident_id` (`uuid4`) carries no information used by any claim and is left
out of the embedding. -/
structure Incident where
  pattern_id : String
  pattern_name : String
  entity_key : String
  phases_matched : List String
  confidence_level : String
  event_count : Nat
  events : List Occ
  severity : String
  status : String
  created_at : ℤ

/-- The `incident_data` dict built by `_check_incident_threshold` once the
threshold is met. -/
def buildIncident (st : EntityState) (ek mid : String) (m : Model) (now : ℤ) : Incident :=
  { pattern_id := m.id
    pattern_name := m.name
    entity_key := ek
    phases_matched := (matchedPhaseEntries st ek mid).map Prod.fst
    confidence_level := confidenceBucket (confidencePct st ek mid m)
    event_count := ((matchedPhaseEntries st ek mid).map Prod.snd).flatten.length
    events := ((matchedPhaseEntries st ek mid).map Prod.snd).flatten
    severity := m.severity
    status := "open"
    created_at := now }

/-- `self.entity_state[entity_key][model_id].clear()`, guarded by the two
`in` checks. -/
def clearModelState (st : EntityState) (ek mid : String) : EntityState :=
  match lookupA st ek with
  | none => st
  | some mm =>
    match lookupA mm mid with
    | none => st
    | some _ => modifyA st ek (fun mm₁ => modifyA mm₁ mid (fun _ => []))

/-- `DetectionEngine._save_incident`: `db.add` + `db.commit` inside
`try/except`; on failure the exception is swallowed (logged, `rollback`), so
the caller cannot observe it.  `saveOk` stands for whether the commit
succeeds; `db` is the list of durably persisted incidents. -/
def save_incident (db : List Incident) (saveOk : Bool) (inc : Incident) : List Incident :=
  if saveOk then db ++ [inc] else db

/-- `DetectionEngine._check_incident_threshold`: parse the threshold, count
phases with a non-empty occurrence list, and on `len(phases_matched) >=
threshold` build the incident, `_save_incident` it, clear the
entity+pattern state unconditionally, and return the incident; otherwise
return `None` touching nothing. -/
def check_incident_threshold (st : EntityState) (db : List Incident) (saveOk : Bool)
    (ek mid : String) (m : Model) (now : ℤ) : Option Incident × EntityState × List Incident :=
  if patternThreshold m ≤ numMatchedPhases st ek mid then
    (some (buildIncident st ek mid m now),
     clearModelState st ek mid,
     save_incident db saveOk (buildIncident st ek mid m now))
  else (none, st, db)

/-! ### Engine state and the per-event pipeline -/

/-- `DetectionEngine.stats`. -/
structure Stats where
  events_processed : Nat
  incidents_created : Nat
  patterns_matched : Nat

/-- The mutable state of a `DetectionEngine` instance (plus the persisted
incidents of its database session). -/
structure Engine where
  entity_state : EntityState
  entity_last_seen : List (String × ℤ)
  stats : Stats
  db : List Incident

/-- The record-then-prune step of `_match_against_model` (lines: append to
`entity_state`, then `_clean_old_events`). -/
def recordAndPrune (st : EntityState) (ek mid pn : String) (event : Event)
    (window_str : String) (now : ℤ) : EntityState :=
  clean_old_events (record_occurrence st ek mid pn ⟨event, now, pn⟩) ek mid window_str now

/-- `DetectionEngine._match_against_model`.  `patterns_matched` is
incremented inside `_match_phase` exactly when it returns a phase;
`incidents_created` is incremented when an incident is returned. -/
def match_against_model (eng : Engine) (saveOk : Bool) (event : Event) (ek mid : String)
    (m : Model) (now : ℤ) : Option Incident × Engine :=
  if m.phases.isEmpty then (none, eng)
  else
    match match_phase event m.phases with
    | none => (none, eng)
    | some phase =>
      let stats₁ := { eng.stats with patterns_matched := eng.stats.patterns_matched + 1 }
      let st₂ := recordAndPrune eng.entity_state ek mid phase.name event m.correlation_window now
      let r := check_incident_threshold st₂ eng.db saveOk ek mid m now
      match r.1 with
      | some inc =>
        (some inc,
         { eng with
            entity_state := r.2.1, db := r.2.2,
            stats := { stats₁ with incidents_created := stats₁.incidents_created + 1 } })
      | none => (none, { eng with entity_state := r.2.1, db := r.2.2, stats := stats₁ })

/-- The model loop of `process_event`: evaluate the catalog in order and
`return` at the first incident. -/
def processModels (saveOk : Bool) (event : Event) (ek : String) (now : ℤ) :
    Engine → List (String × Model) → Option Incident × Engine
  | eng, [] => (none, eng)
  | eng, (mid, m) :: rest =>
    match match_against_model eng saveOk event ek mid m now with
    | (some inc, eng₁) => (some inc, eng₁)
    | (none, eng₁) => processModels saveOk event ek now eng₁ rest

/-- `DetectionEngine.process_event` (the loaded catalog
`model_loader.get_all_models().items()` is passed as `models`). -/
def process_event (models : List (String × Model)) (eng : Engine) (saveOk : Bool)
    (event : Event) (now : ℤ) : Option Incident × Engine :=
  let eng₁ := { eng with stats := { eng.stats with events_processed := eng.stats.events_processed + 1 } }
  let ek := extract_entity_key event
  let eng₂ := { eng₁ with entity_last_seen := setA eng₁.entity_last_seen ek now }
  processModels saveOk event ek now eng₂ models

/-- `DetectionEngine.clear_entity_state` (note `if entity_key:` is a Python
truthiness test, so both `None` and `""` select the clear-all branch). -/
def clear_entity_state (eng : Engine) (entity_key : Option String) : Engine :=
  match entity_key with
  | some ek =>
    if !ek.isEmpty then
      if (lookupA eng.entity_state ek).isSome then
        { eng with entity_state := eraseA eng.entity_state ek }
      else eng
    else { eng with entity_state := [] }
  | none => { eng with entity_state := [] }

/-! ### `EventProcessor` (`event_processor.py`)

`normalize_event` is modelled as a pure function of the raw event, the
declared source, the generated uuid (`event_id`) and the current time's
isoformat string, the latter two being the only non-deterministic inputs of
the Python code. -/

/-- `EventProcessor.FIELD_MAPPINGS`. -/
def fieldMappings : List (String × List (String × String)) :=
  [("paloalto",
    [("user", "UserName"), ("src_ip", "LocalAddressIP4"), ("dest_ip", "RemoteAddressIP4"),
     ("src_port", "LocalPort"), ("dest_port", "RemotePort"), ("action", "Action"),
     ("device", "DeviceName")]),
   ("entraid",
    [("userPrincipalName", "UserName"), ("ipAddress", "aip"), ("location", "Location"),
     ("appDisplayName", "Application"), ("status", "Status"),
     ("deviceDetail.operatingSystem", "OperatingSystem")]),
   ("falcon",
    [("ComputerName", "ComputerName"), ("UserName", "UserName"), ("FileName", "FileName"),
     ("CommandLine", "CommandLine"), ("SHA256HashData", "SHA256HashData"),
     ("event_simpleName", "event_type")]),
   ("siem",
    [("host", "ComputerName"), ("user", "UserName"), ("source_ip", "aip"),
     ("event_type", "event_type")])]

/-- Python `field_path.split('.')` (keeps empty segments). -/
def splitOnDotAux : List Char → List Char → List String
  | [], acc => [⟨acc.reverse⟩]
  | c :: cs, acc =>
    if c == '.' then (⟨acc.reverse⟩ : String) :: splitOnDotAux cs []
    else splitOnDotAux cs (c :: acc)

/-- Python `field_path.split('.')`. -/
def splitOnDot (s : String) : List String := splitOnDotAux s.data []

/-- The loop of `_extract_nested_field`: descend through nested dicts. -/
def extractNestedGo : PyVal → List String → Option PyVal
  | v, [] => some v
  | .dict d, part :: rest =>
    match lookupA d part with
    | some v => extractNestedGo v rest
    | none => none
  | .str _, _ :: _ => none

/-- `EventProcessor._extract_nested_field`. -/
def extract_nested_field (data : Event) (field_path : String) : Option PyVal :=
  extractNestedGo (.dict data) (splitOnDot field_path)

/-- The timestamp synonym fields of `_extract_timestamp`. -/
def timestampFields : List String :=
  ["timestamp", "time", "@timestamp", "eventTime", "createdDateTime", "Timestamp"]

/-- The loop of `_extract_timestamp`: first field present with a string value
wins (a `datetime` value is its isoformat string in this model; a dict value
is neither `str` nor `datetime` and is skipped, as in the source). -/
def extractTimestampGo (raw : Event) (nowIso : String) : List String → String
  | [] => nowIso
  | f :: rest =>
    match lookupA raw f with
    | some (.str s) => s
    | _ => extractTimestampGo raw nowIso rest

/-- `EventProcessor._extract_timestamp` (`nowIso` is
`datetime.utcnow().isoformat()`, the fallback). -/
def extract_timestamp (raw : Event) (nowIso : String) : String :=
  extractTimestampGo raw nowIso timestampFields

/-- The mapping loop of `normalize_event`:
`normalized[normalized_field] = value` whenever the raw field resolves. -/
def applyMappings (normalized raw : Event) : List (String × String) → Event
  | [] => normalized
  | (rawField, normField) :: rest =>
    match extract_nested_field raw rawField with
    | some v => applyMappings (setA normalized normField v) raw rest
    | none => applyMappings normalized raw rest

/-- First synonym field of the raw event holding a truthy value
(`value = raw_event.get(field); if value: ... break`). -/
def firstTruthyField (raw : Event) : List String → Option PyVal
  | [] => none
  | f :: rest =>
    match lookupA raw f with
    | some v => if pyTruthy v then some v else firstTruthyField raw rest
    | none => firstTruthyField raw rest

/-- One `if target not in normalized: for field in synonyms: ...` block of
`_extract_common_fields`. -/
def commonField (normalized raw : Event) (target : String) (synonyms : List String) : Event :=
  if (lookupA normalized target).isSome then normalized
  else
    match firstTruthyField raw synonyms with
    | some v => setA normalized target v
    | none => normalized

/-- `EventProcessor._extract_common_fields`. -/
def extract_common_fields (normalized raw : Event) : Event :=
  let n₁ := commonField normalized raw "UserName"
    ["user", "username", "user_name", "userName", "account", "identity"]
  let n₂ := commonField n₁ raw "ComputerName"
    ["computer", "hostname", "host", "device", "machine", "endpoint"]
  let n₃ := commonField n₂ raw "aip"
    ["ip", "ip_address", "ipAddress", "source_ip", "src_ip", "clientIP"]
  let n₄ := commonField n₃ raw "FileName"
    ["file", "filename", "file_name", "targetFileName", "path"]
  let n₅ := commonField n₄ raw "CommandLine"
    ["command", "commandline", "cmd", "process_command", "command_line"]
  commonField n₅ raw "Action"
    ["action", "result", "status", "outcome", "disposition"]

/-- `event.get("source") == lit` (a non-string value never equals a string). -/
def sourceIs (event : Event) (lit : String) : Bool :=
  match lookupA event "source" with
  | some (.str s) => s == lit
  | _ => false

/-- The `"source"` value as a string (`normalize_event` always stores a
string there). -/
def sourceStrOf (event : Event) : String :=
  match lookupA event "source" with
  | some (.str s) => s
  | _ => ""

/-- `str(event.get("raw_event", {}))`. -/
def rawEventStr (event : Event) : String :=
  pyStr ((lookupA event "raw_event").getD (.dict []))

/-- The classification cascade of `_classify_event_type` when the event has
no `event_type` key yet. -/
def classifyFresh (event : Event) : String :=
  let hasKey := fun (k : String) => (lookupA event k).isSome
  if (hasKey "UserName" || hasKey "login" || hasKey "signin" || hasKey "authentication") &&
      (sourceIs event "entraid" || strContains (pyLower (rawEventStr event)) "auth") then
    "authentication"
  else if hasKey "RemoteAddressIP4" || hasKey "LocalAddressIP4" || hasKey "RemotePort" then
    "network"
  else if (hasKey "CommandLine" || hasKey "ProcessRollup" || hasKey "FileName") &&
      (["powershell", "cmd.exe", "wscript", "rundll32"].any
        (fun proc => strContains (pyLower (pyGetStrD event "CommandLine" "")) proc)) then
    "process_execution"
  else if strContains (rawEventStr event) "FileWrite" ||
      strContains (pyLower (pyGetStrD event "Action" "")) "file" then
    "file_operation"
  else if sourceIs event "aws" || sourceIs event "azure" || sourceIs event "gcp" ||
      strContains (sourceStrOf event) "cloud" then
    "cloud_operation"
  else if sourceIs event "proofpoint" || strContains (pyLower (rawEventStr event)) "email" then
    "email"
  else "unknown"

/-- `EventProcessor._classify_event_type`: an existing `event_type` value is
returned as-is, else the fresh classification string. -/
def classify_event_type (event : Event) : PyVal :=
  match lookupA event "event_type" with
  | some v => v
  | none => .str (classifyFresh event)

/-- The base normalized dict of `normalize_event` (uuid and current time
passed in as `event_id` / `nowIso`). -/
def normalizeBase (raw_event : Event) (source event_id nowIso : String) : Event :=
  [("event_id", .str event_id),
   ("source", .str (pyLower source)),
   ("timestamp", .str (extract_timestamp raw_event nowIso)),
   ("raw_event", .dict raw_event)]

/-- The base dict after the source-specific field mappings (skipped entirely
for a source absent from `FIELD_MAPPINGS`). -/
def normalizeMapped (raw_event : Event) (source event_id nowIso : String) : Event :=
  match lookupA fieldMappings (pyLower source) with
  | some mappings => applyMappings (normalizeBase raw_event source event_id nowIso) raw_event mappings
  | none => normalizeBase raw_event source event_id nowIso

/-- `EventProcessor.normalize_event`. -/
def normalize_event (raw_event : Event) (source event_id nowIso : String) : Event :=
  let common := extract_common_fields (normalizeMapped raw_event source event_id nowIso) raw_event
  setA common "event_type" (classify_event_type common)

/-! ### Concrete fixtures for witnesses and counterexamples -/

/-- An occurrence with an opaque source event. -/
def occAt (t : ℤ) (pn : String) : Occ := { event := [], timestamp := t, phase := pn }

def phDelivery : Phase := { name := "delivery", source := "", indicators := "" }

def phExecution : Phase := { name := "execution", source := "", indicators := "" }

def phTransfer : Phase := { name := "transfer", source := "", indicators := "" }

def phImpact : Phase := { name := "impact", source := "", indicators := "" }

/-- A ransomware-style pattern: three phases, 90-minute window, threshold 3. -/
def mRansom : Model :=
  { id := "m1", name := "Ransomware", phases := [phDelivery, phExecution, phImpact],
    correlation_window := "90 minutes", trigger_condition := "≥ 3 correlated phases",
    severity := "High" }

/-- A pattern whose trigger-condition text has no number. -/
def mNoDigits : Model :=
  { id := "n", name := "NoDigits", phases := [phDelivery, phExecution, phTransfer],
    correlation_window := "60 minutes",
    trigger_condition := "at least three correlated phases", severity := "High" }

/-- A single-phase pattern that fires on the first matching event. -/
def mQuick : Model :=
  { id := "A", name := "Quick", phases := [phExecution],
    correlation_window := "60 minutes", trigger_condition := "1 phase", severity := "High" }

/-- A second pattern whose phase the same event also satisfies. -/
def mOther : Model :=
  { id := "B", name := "Other", phases := [phTransfer],
    correlation_window := "60 minutes", trigger_condition := "3 phases", severity := "High" }

def catalogAB : List (String × Model) := [("A", mQuick), ("B", mOther)]

def engEmpty : Engine :=
  { entity_state := [], entity_last_seen := [],
    stats := { events_processed := 0, incidents_created := 0, patterns_matched := 0 },
    db := [] }

/-- Entity state with a single matched phase for `(user:alice, m1)`. -/
def stOnePhase : EntityState := [("user:alice", [("m1", [("delivery", [occAt 0 "delivery"])])])]

/-- Entity state with three distinct matched phases for `(user:alice, m1)`. -/
def stThreePhases : EntityState :=
  [("user:alice",
    [("m1",
      [("delivery", [occAt 0 "delivery"]),
       ("execution", [occAt 600000000 "execution"]),
       ("impact", [occAt 1200000000 "impact"])])])]

/-- An event carrying a user and an IP but no host. -/
def evUserIp : Event := [("UserName", PyVal.str "alice"), ("aip", PyVal.str "10.0.0.5")]

/-- An event whose attribute values satisfy the criteria of both the
`execution` and the `transfer` phase keywords. -/
def evMulti : Event := [("CommandLine", PyVal.str "powershell upload data")]

/-- Same attributes plus a user for entity-key extraction. -/
def evAlice : Event :=
  [("UserName", PyVal.str "alice"), ("CommandLine", PyVal.str "powershell upload data")]

/-- State exercising both sides of the window boundary: window `60 minutes`
(`3600000000` microseconds), `now = 4000000000`, so the cutoff is
`400000000`; one occurrence sits `1` microsecond below it, one `1`
microsecond above it. -/
def stBoundary : EntityState :=
  [("e", [("m", [("p", [occAt 399999999 "p", occAt 400000001 "p"])])])]

/-- A two-entity engine with non-zero statistics. -/
def engTwo : Engine :=
  { entity_state :=
      [("user:alice", [("m1", [("delivery", [occAt 0 "delivery"])])]),
       ("user:bob", [("m1", [("execution", [occAt 5 "execution"])])])],
    entity_last_seen := [],
    stats := { events_processed := 3, incidents_created := 1, patterns_matched := 2 },
    db := [] }

/-! ### Shared lemmas -/

theorem lookupA_map_values {α β : Type} (m : List (String × α)) (g : α → β) (k : String) :
    lookupA (m.map (fun p => (p.1, g p.2))) k = (lookupA m k).map g := by
  induction m with
  | nil => simp [lookupA]
  | cons p t ih =>
    obtain ⟨k₁, v₁⟩ := p
    by_cases h : k₁ == k
    · simp [lookupA, h]
    · simp only [List.map_cons, lookupA, h, Bool.false_eq_true, ite_false]
      exact ih

theorem lookupA_mem_values {α : Type} (m : List (String × α)) (k : String) (v : α)
    (h : lookupA m k = some v) : v ∈ m.map Prod.snd := by
  induction m with
  | nil => simp [lookupA] at h
  | cons p t ih =>
    obtain ⟨k₁, v₁⟩ := p
    by_cases h₁ : k₁ == k
    · simp only [lookupA, h₁, if_true, Option.some.injEq] at h
      simp [h]
    · simp only [lookupA, h₁, Bool.false_eq_true, ite_false] at h
      simp [ih h]

/-- After `_clean_old_events`, the occurrence list of every phase of the
affected `(entity, model)` cell is exactly the old list filtered by
`timestamp > now - window`. -/
theorem occsAt_clean_old_events (st : EntityState) (ek mid ws : String) (now : ℤ) (pn : String) :
    occsAt (clean_old_events st ek mid ws now) ek mid pn =
      (occsAt st ek mid pn).filter
        (fun o => decide (now - (parse_time_window ws : ℤ) * usPerMinute < o.timestamp)) := by
  cases hek : lookupA st ek with
  | none =>
    have hempty : phaseMapAt st ek mid = [] := by
      simp [phaseMapAt, getDefA, hek, lookupA]
    have hclean : clean_old_events st ek mid ws now = st := by
      simp [clean_old_events, hek]
    simp [hclean, occsAt, hempty, getDefA, lookupA]
  | some mm =>
    cases hmid : lookupA mm mid with
    | none =>
      have hempty : phaseMapAt st ek mid = [] := by
        simp [phaseMapAt, getDefA, hek, hmid, lookupA]
      have hclean : clean_old_events st ek mid ws now = st := by
        simp [clean_old_events, hek, hmid]
      simp [hclean, occsAt, hempty, getDefA, lookupA]
    | some pm =>
      have hclean : clean_old_events st ek mid ws now =
          modifyA st ek (fun mm₁ => modifyA mm₁ mid
            (fun pm₁ => prunePhaseMap pm₁ (now - (parse_time_window ws : ℤ) * usPerMinute))) := by
        simp [clean_old_events, hek, hmid]
      have hpm : phaseMapAt st ek mid = pm := by
        simp [phaseMapAt, getDefA, hek, hmid]
      have hpm₂ : phaseMapAt (clean_old_events st ek mid ws now) ek mid =
          prunePhaseMap pm (now - (parse_time_window ws : ℤ) * usPerMinute) := by
        rw [hclean]
        simp only [phaseMapAt, getDefA]
        rw [lookupA_modifyA_self, hek]
        simp only [Option.map_some', Option.getD_some]
        rw [lookupA_modifyA_self, hmid]
        simp
      simp only [occsAt, hpm₂, hpm, prunePhaseMap, getDefA]
      rw [lookupA_map_values]
      cases hpn : lookupA pm pn with
      | none => simp
      | some occs => simp

/-- `record_occurrence` appends the new occurrence at the right phase of the
right cell. -/
theorem phaseMapAt_record (st : EntityState) (ek mid pn : String) (o : Occ) :
    phaseMapAt (record_occurrence st ek mid pn o) ek mid =
      setA (phaseMapAt st ek mid) pn (occsAt st ek mid pn ++ [o]) := by
  unfold record_occurrence
  simp only [phaseMapAt, occsAt, getDefA]
  rw [lookupA_setA_self]
  simp only [Option.getD_some]
  rw [lookupA_setA_self]
  simp only [Option.getD_some, phaseMapAt, getDefA]

/-- Clearing an `(entity, model)` cell leaves its phase map empty (it was
already empty when the cell did not exist). -/
theorem phaseMapAt_clearModelState (st : EntityState) (ek mid : String) :
    phaseMapAt (clearModelState st ek mid) ek mid = [] := by
  cases hek : lookupA st ek with
  | none =>
    have hclear : clearModelState st ek mid = st := by
      simp [clearModelState, hek]
    simp [hclear, phaseMapAt, getDefA, hek, lookupA]
  | some mm =>
    cases hmid : lookupA mm mid with
    | none =>
      have hclear : clearModelState st ek mid = st := by
        simp [clearModelState, hek, hmid]
      simp [hclear, phaseMapAt, getDefA, hek, hmid, lookupA]
    | some pm =>
      have hclear : clearModelState st ek mid =
          modifyA st ek (fun mm₁ => modifyA mm₁ mid (fun _ => [])) := by
        simp [clearModelState, hek, hmid]
      rw [hclear]
      simp only [phaseMapAt, getDefA]
      rw [lookupA_modifyA_self, hek]
      simp only [Option.map_some', Option.getD_some]
      rw [lookupA_modifyA_self, hmid]
      simp

theorem allNumbersAux_no_digit (l : List Char) (h : ∀ c ∈ l, c.isDigit = false) :
    allNumbersAux l [] = [] := by
  induction l with
  | nil => simp [allNumbersAux]
  | cons c cs ih =>
    have hc : c.isDigit = false := h c (by simp)
    simp only [allNumbersAux, hc, Bool.false_eq_true, ite_false, List.isEmpty_nil, if_true]
    exact ih (fun d hd => h d (by simp [hd]))

/-! ### Claim C1: threshold evaluation -/

/-- C1: for every entity-pattern state and pattern with threshold `T`: below
`T` distinct matched phase names, `_check_incident_threshold` returns no
incident and leaves state and database untouched; at `≥ T` it returns
exactly one incident and clears the entity+pattern state, and a subsequent
single recorded occurrence (fewer than `T ≥ 2` re-accumulated distinct
phases) yields no further incident. -/
theorem check_incident_threshold_evaluation (st : EntityState) (db : List Incident)
    (saveOk : Bool) (ek mid : String) (m : Model) (now : ℤ) :
    (numMatchedPhases st ek mid < patternThreshold m →
      check_incident_threshold st db saveOk ek mid m now = (none, st, db)) ∧
    (patternThreshold m ≤ numMatchedPhases st ek mid →
      (∃ inc, (check_incident_threshold st db saveOk ek mid m now).1 = some inc) ∧
      phaseMapAt (check_incident_threshold st db saveOk ek mid m now).2.1 ek mid = [] ∧
      (∀ pn o now₂, 2 ≤ patternThreshold m →
        (check_incident_threshold
          (record_occurrence (check_incident_threshold st db saveOk ek mid m now).2.1 ek mid pn o)
          db saveOk ek mid m now₂).1 = none)) := by
  constructor
  · intro h
    have hc : ¬ (patternThreshold m ≤ numMatchedPhases st ek mid) := Nat.not_le.mpr h
    simp [check_incident_threshold, hc]
  · intro h
    have hres : check_incident_threshold st db saveOk ek mid m now =
        (some (buildIncident st ek mid m now), clearModelState st ek mid,
         save_incident db saveOk (buildIncident st ek mid m now)) := by
      simp [check_incident_threshold, h]
    refine ⟨⟨buildIncident st ek mid m now, by rw [hres]⟩, ?_, ?_⟩
    · rw [hres]
      exact phaseMapAt_clearModelState st ek mid
    · intro pn o now₂ h2
      rw [hres]
      have hrec : phaseMapAt (record_occurrence (clearModelState st ek mid) ek mid pn o) ek mid
          = [(pn, [o])] := by
        rw [phaseMapAt_record]
        simp [occsAt, phaseMapAt_clearModelState, getDefA, lookupA, setA]
      have hn : numMatchedPhases (record_occurrence (clearModelState st ek mid) ek mid pn o)
          ek mid = 1 := by
        simp [numMatchedPhases, matchedPhaseEntries, hrec]
      have hc : ¬ (patternThreshold m ≤ numMatchedPhases
          (record_occurrence (clearModelState st ek mid) ek mid pn o) ek mid) := by
        rw [hn]; omega
      simp [check_incident_threshold, hc]

/-- Witness for C1: with one matched phase and threshold 3 the state
persists untouched; with three matched phases the entity+pattern state is
cleared. -/
theorem check_incident_threshold_evaluation_witness :
    check_incident_threshold stOnePhase [] true "user:alice" "m1" mRansom 1200000000 =
      (none, stOnePhase, []) ∧
    phaseMapAt (check_incident_threshold stThreePhases [] true "user:alice" "m1" mRansom
      1200000000).2.1 "user:alice" "m1" = [] :=
  ⟨(check_incident_threshold_evaluation stOnePhase [] true "user:alice" "m1" mRansom
      1200000000).1 (by decide),
   ((check_incident_threshold_evaluation stThreePhases [] true "user:alice" "m1" mRansom
      1200000000).2 (by decide)).2.1⟩

/-! ### Claim C2: state is cleared even when persistence fails -/

/-- C2 fails on the code: with three distinct matched phases (threshold 3)
and a failing database commit (`saveOk = false`), `_check_incident_threshold`
still returns the incident, persists nothing (the exception is swallowed in
`_save_incident`), and nevertheless clears the entity+pattern state — the
accumulated evidence of the detected attack chain is lost. -/
theorem save_failure_still_clears_state :
    (check_incident_threshold stThreePhases [] false "user:alice" "m1" mRansom
        1200000000).1.isSome = true ∧
    (check_incident_threshold stThreePhases [] false "user:alice" "m1" mRansom
        1200000000).2.2.isEmpty = true ∧
    phaseMapAt (check_incident_threshold stThreePhases [] false "user:alice" "m1" mRansom
        1200000000).2.1 "user:alice" "m1" = [] :=
  ⟨rfl, rfl, rfl⟩

/-! ### Claim C3: entity-key dimension priority -/

/-- C3 fails on the code: for an event with a user and an IP but no host,
`_extract_entity_key` returns the plain `user:` key — the IP dimension is
dropped whenever a username or computer resolved, contradicting the
documented `UserName + aip` priority. -/
theorem entity_key_drops_ip_when_user_present :
    extract_entity_key evUserIp = "user:alice" ∧
    ("user:alice" : String) ≠ "user:alice|ip:10.0.0.5" := by
  refine ⟨by decide, by decide⟩

/-! ### Claim C4: the phase matcher returns only the first matching phase -/

/-- C4 fails on the code: the event satisfies the criteria of both phases of
the pattern, yet `_match_phase` returns only the first one. -/
theorem match_phase_returns_only_first :
    phaseCriteria evMulti phTransfer = true ∧
    match_phase evMulti [phExecution, phTransfer] = some phExecution ∧
    phExecution ≠ phTransfer := by
  refine ⟨by decide, by decide, by decide⟩

/-- C4 (amended): `_match_phase` returns the first phase, in the pattern's
phase order, whose criteria the event satisfies; every phase before it fails
the criteria, and nothing further is reported. -/
theorem match_phase_first (event : Event) (phases : List Phase) (p : Phase)
    (h : match_phase event phases = some p) :
    phaseCriteria event p = true ∧
    ∃ l₁ l₂, phases = l₁ ++ p :: l₂ ∧ ∀ q ∈ l₁, phaseCriteria event q = false := by
  induction phases with
  | nil => simp [match_phase] at h
  | cons ph rest ih =>
    by_cases hc : phaseCriteria event ph = true
    · simp only [match_phase, hc, if_true, Option.some.injEq] at h
      subst h
      exact ⟨hc, [], rest, rfl, by simp⟩
    · simp only [match_phase, hc, Bool.false_eq_true, ite_false] at h
      obtain ⟨hcrit, l₁, l₂, heq, hall⟩ := ih h
      refine ⟨hcrit, ph :: l₁, l₂, by rw [heq]; rfl, ?_⟩
      intro q hq
      rcases List.mem_cons.mp hq with hq | hq
      · subst hq
        exact Bool.eq_false_iff.mpr hc
      · exact hall q hq

/-- Witness for C4's amended theorem at a concrete event and phase list. -/
theorem match_phase_first_witness :
    phaseCriteria evMulti phExecution = true ∧
    ∃ l₁ l₂, [phExecution, phTransfer] = l₁ ++ phExecution :: l₂ ∧
      ∀ q ∈ l₁, phaseCriteria evMulti q = false :=
  match_phase_first evMulti [phExecution, phTransfer] phExecution (by decide)

/-! ### Claim C5: pattern iteration short-circuits on an incident -/

/-- C5 fails on the code: at a concrete event triggering an incident on the
first catalog pattern, `process_event` returns that incident while the
second pattern — whose phase the same event satisfies — is never evaluated:
no state is recorded for it. -/
theorem process_event_skips_rest_after_incident :
    (process_event catalogAB engEmpty true evAlice 0).1.isSome = true ∧
    match_phase evAlice mOther.phases = some phTransfer ∧
    phaseMapAt (process_event catalogAB engEmpty true evAlice 0).2.entity_state
      "user:alice" "B" = [] :=
  ⟨rfl, by decide, rfl⟩

/-- C5 (amended): the model loop of `process_event` evaluates every loaded
pattern in catalog order until one synthesizes an incident: a pattern that
yields no incident (whether or not it matched a phase) lets the loop
continue with the accumulated state, while a synthesized incident is
returned at once, skipping the remaining patterns for that event. -/
theorem process_models_stop_only_on_incident (saveOk : Bool) (event : Event) (ek : String)
    (now : ℤ) (eng : Engine) (mid : String) (m : Model) (rest : List (String × Model)) :
    ((match_against_model eng saveOk event ek mid m now).1 = none →
      processModels saveOk event ek now eng ((mid, m) :: rest) =
        processModels saveOk event ek now
          (match_against_model eng saveOk event ek mid m now).2 rest) ∧
    (∀ inc, (match_against_model eng saveOk event ek mid m now).1 = some inc →
      processModels saveOk event ek now eng ((mid, m) :: rest) =
        (some inc, (match_against_model eng saveOk event ek mid m now).2)) := by
  constructor
  · intro h
    rcases hr : match_against_model eng saveOk event ek mid m now with ⟨o, eng₁⟩
    rw [hr] at h
    simp only at h
    subst h
    simp [processModels, hr]
  · intro inc h
    rcases hr : match_against_model eng saveOk event ek mid m now with ⟨o, eng₁⟩
    rw [hr] at h
    simp only at h
    subst h
    simp [processModels, hr]

/-- Witness for C5's amended theorem: the first pattern produces no incident,
so the loop continues into the rest of the catalog. -/
theorem process_models_stop_only_on_incident_witness :
    processModels true evAlice "user:alice" 0 engEmpty [("B", mOther), ("A", mQuick)] =
      processModels true evAlice "user:alice" 0
        (match_against_model engEmpty true evAlice "user:alice" "B" mOther 0).2
        [("A", mQuick)] :=
  (process_models_stop_only_on_incident true evAlice "user:alice" 0 engEmpty "B" mOther
    [("A", mQuick)]).1 rfl

/-! ### Claim C6: pruning precedes threshold evaluation -/

/-- C6: on a phase match, `_match_against_model` records the occurrence,
prunes, and evaluates `_check_incident_threshold` exactly on the pruned
state (`recordAndPrune`), and in that state every stored occurrence of the
affected entity+pattern cell satisfies `now - matchedAt ≤ windowDuration`. -/
theorem prune_before_threshold (eng : Engine) (saveOk : Bool) (event : Event)
    (ek mid : String) (m : Model) (now : ℤ) (phase : Phase)
    (h : match_phase event m.phases = some phase) :
    ((match_against_model eng saveOk event ek mid m now).1 =
      (check_incident_threshold
        (recordAndPrune eng.entity_state ek mid phase.name event m.correlation_window now)
        eng.db saveOk ek mid m now).1) ∧
    ((match_against_model eng saveOk event ek mid m now).2.entity_state =
      (check_incident_threshold
        (recordAndPrune eng.entity_state ek mid phase.name event m.correlation_window now)
        eng.db saveOk ek mid m now).2.1) ∧
    (∀ pn o, o ∈ occsAt
        (recordAndPrune eng.entity_state ek mid phase.name event m.correlation_window now)
        ek mid pn →
      now - o.timestamp ≤ (parse_time_window m.correlation_window : ℤ) * usPerMinute) := by
  have hne : m.phases.isEmpty = false := by
    cases hp : m.phases with
    | nil => rw [hp] at h; simp [match_phase] at h
    | cons a l => simp
  refine ⟨?_, ?_, ?_⟩
  · simp only [match_against_model, hne, Bool.false_eq_true, ite_false, h]
    cases hr : (check_incident_threshold
        (recordAndPrune eng.entity_state ek mid phase.name event m.correlation_window now)
        eng.db saveOk ek mid m now).1 with
    | none => simp [hr]
    | some inc => simp [hr]
  · simp only [match_against_model, hne, Bool.false_eq_true, ite_false, h]
    cases hr : (check_incident_threshold
        (recordAndPrune eng.entity_state ek mid phase.name event m.correlation_window now)
        eng.db saveOk ek mid m now).1 with
    | none => simp [hr]
    | some inc => simp [hr]
  · intro pn o ho
    rw [recordAndPrune, occsAt_clean_old_events] at ho
    rw [List.mem_filter] at ho
    have hlt := of_decide_eq_true ho.2
    generalize (parse_time_window m.correlation_window : ℤ) * usPerMinute = W at hlt ⊢
    omega

/-- Witness for C6 at a concrete engine, event and pattern. -/
theorem prune_before_threshold_witness :
    ((match_against_model engEmpty true evAlice "user:alice" "A" mQuick 0).1 =
      (check_incident_threshold
        (recordAndPrune engEmpty.entity_state "user:alice" "A" phExecution.name evAlice
          mQuick.correlation_window 0)
        engEmpty.db true "user:alice" "A" mQuick 0).1) ∧
    ((match_against_model engEmpty true evAlice "user:alice" "A" mQuick 0).2.entity_state =
      (check_incident_threshold
        (recordAndPrune engEmpty.entity_state "user:alice" "A" phExecution.name evAlice
          mQuick.correlation_window 0)
        engEmpty.db true "user:alice" "A" mQuick 0).2.1) ∧
    (∀ pn o, o ∈ occsAt
        (recordAndPrune engEmpty.entity_state "user:alice" "A" phExecution.name evAlice
          mQuick.correlation_window 0)
        "user:alice" "A" pn →
      0 - o.timestamp ≤ (parse_time_window mQuick.correlation_window : ℤ) * usPerMinute) :=
  prune_before_threshold engEmpty true evAlice "user:alice" "A" mQuick 0 phExecution (by decide)

/-! ### Claim C7: window boundary of pruning -/

/-- C7: for every entity-pattern state, window string and `ε > 0`, the
pruning pass removes an occurrence stamped `now - window - ε` and keeps one
stamped `now - window + ε` (that was present before). -/
theorem window_boundary_pruning (st : EntityState) (ek mid pn ws : String) (now eps : ℤ)
    (o : Occ) (heps : 0 < eps) :
    (o.timestamp = now - (parse_time_window ws : ℤ) * usPerMinute - eps →
      o ∉ occsAt (clean_old_events st ek mid ws now) ek mid pn) ∧
    (o ∈ occsAt st ek mid pn →
      o.timestamp = now - (parse_time_window ws : ℤ) * usPerMinute + eps →
      o ∈ occsAt (clean_old_events st ek mid ws now) ek mid pn) := by
  rw [occsAt_clean_old_events]
  constructor
  · intro ht hmem
    rw [List.mem_filter] at hmem
    have hlt := of_decide_eq_true hmem.2
    generalize hW : (parse_time_window ws : ℤ) * usPerMinute = W at ht hlt
    omega
  · intro hmem ht
    rw [List.mem_filter]
    refine ⟨hmem, decide_eq_true ?_⟩
    generalize hW : (parse_time_window ws : ℤ) * usPerMinute = W at ht ⊢
    omega

/-- Witness for C7: with a 60-minute window and `now = 4000000000` the
cutoff is `400000000`; the occurrence one microsecond older is pruned, the
one one microsecond younger survives. -/
theorem window_boundary_pruning_witness :
    occAt 399999999 "p" ∉ occsAt (clean_old_events stBoundary "e" "m" "60 minutes"
      4000000000) "e" "m" "p" ∧
    occAt 400000001 "p" ∈ occsAt (clean_old_events stBoundary "e" "m" "60 minutes"
      4000000000) "e" "m" "p" := by
  constructor
  · exact (window_boundary_pruning stBoundary "e" "m" "p" "60 minutes" 4000000000 1
      (occAt 399999999 "p") (by decide)).1 (by decide)
  · refine (window_boundary_pruning stBoundary "e" "m" "p" "60 minutes" 4000000000 1
      (occAt 400000001 "p") (by decide)).2 ?_ (by decide)
    simp [occsAt, phaseMapAt, getDefA, lookupA, stBoundary]

/-! ### Claim C8: default threshold on an unparseable trigger condition -/

/-- C8: for a pattern whose trigger-condition text contains no digits,
threshold parsing falls back to 3, and threshold evaluation still runs with
that default: an incident is produced exactly when 3 distinct phases have a
non-empty occurrence list. -/
theorem default_threshold_unparseable (m : Model)
    (h : ∀ c ∈ m.trigger_condition.data, c.isDigit = false) :
    patternThreshold m = 3 ∧
    ∀ st db saveOk ek mid now,
      ((check_incident_threshold st db saveOk ek mid m now).1.isSome ↔
        3 ≤ numMatchedPhases st ek mid) := by
  have h3 : patternThreshold m = 3 := by
    unfold patternThreshold firstNumber allNumbers
    rw [allNumbersAux_no_digit _ h]
    rfl
  refine ⟨h3, ?_⟩
  intro st db saveOk ek mid now
  by_cases hc : 3 ≤ numMatchedPhases st ek mid
  · simp [check_incident_threshold, h3, hc]
  · simp [check_incident_threshold, h3, hc]

/-- Witness for C8 at the pattern whose trigger text is
`at least three correlated phases`. -/
theorem default_threshold_unparseable_witness :
    patternThreshold mNoDigits = 3 ∧
    ∀ st db saveOk ek mid now,
      ((check_incident_threshold st db saveOk ek mid mNoDigits now).1.isSome ↔
        3 ≤ numMatchedPhases st ek mid) :=
  default_threshold_unparseable mNoDigits (by decide)

/-! ### Claim C9: totality of the normalizer and the source tag -/

theorem lookupA_applyMappings_ne (normalized raw : Event) (ms : List (String × String))
    (k : String) (h : ∀ p ∈ ms, p.2 ≠ k) :
    lookupA (applyMappings normalized raw ms) k = lookupA normalized k := by
  induction ms generalizing normalized with
  | nil => simp [applyMappings]
  | cons p rest ih =>
    obtain ⟨rf, nf⟩ := p
    have hnf : nf ≠ k := h (rf, nf) (by simp)
    cases hv : extract_nested_field raw rf with
    | none =>
      simp only [applyMappings, hv]
      exact ih _ (fun q hq => h q (by simp [hq]))
    | some v =>
      simp only [applyMappings, hv]
      rw [ih _ (fun q hq => h q (by simp [hq]))]
      exact lookupA_setA_ne _ _ _ _ hnf

theorem lookupA_commonField_ne (normalized raw : Event) (target : String)
    (syns : List String) (k : String) (h : target ≠ k) :
    lookupA (commonField normalized raw target syns) k = lookupA normalized k := by
  unfold commonField
  cases hp : (lookupA normalized target).isSome with
  | true => simp
  | false =>
    simp only [Bool.false_eq_true, ite_false]
    cases hf : firstTruthyField raw syns with
    | none => rfl
    | some v => exact lookupA_setA_ne _ _ _ _ h

theorem lookupA_extract_common_fields_ne (normalized raw : Event) (k : String)
    (h1 : k ≠ "UserName") (h2 : k ≠ "ComputerName") (h3 : k ≠ "aip")
    (h4 : k ≠ "FileName") (h5 : k ≠ "CommandLine") (h6 : k ≠ "Action") :
    lookupA (extract_common_fields normalized raw) k = lookupA normalized k := by
  simp only [extract_common_fields]
  rw [lookupA_commonField_ne _ _ _ _ _ (Ne.symm h6),
      lookupA_commonField_ne _ _ _ _ _ (Ne.symm h5),
      lookupA_commonField_ne _ _ _ _ _ (Ne.symm h4),
      lookupA_commonField_ne _ _ _ _ _ (Ne.symm h3),
      lookupA_commonField_ne _ _ _ _ _ (Ne.symm h2),
      lookupA_commonField_ne _ _ _ _ _ (Ne.symm h1)]

/-- Every normalized-field target of `FIELD_MAPPINGS` differs from the
`source` and `event_id` keys of the base dict. -/
theorem fieldMappings_targets (s : String) (ms : List (String × String))
    (hm : lookupA fieldMappings s = some ms) :
    ∀ p ∈ ms, p.2 ≠ "source" ∧ p.2 ≠ "event_id" := by
  have hv := lookupA_mem_values _ _ _ hm
  have hall : ∀ v ∈ fieldMappings.map Prod.snd, ∀ p ∈ v, p.2 ≠ "source" ∧ p.2 ≠ "event_id" := by
    decide
  exact hall ms hv

theorem lookupA_normalizeMapped_base_keys (raw : Event) (source event_id nowIso : String) :
    lookupA (normalizeMapped raw source event_id nowIso) "source"
        = some (.str (pyLower source)) ∧
    lookupA (normalizeMapped raw source event_id nowIso) "event_id"
        = some (.str event_id) := by
  unfold normalizeMapped
  cases hm : lookupA fieldMappings (pyLower source) with
  | none => exact ⟨rfl, rfl⟩
  | some ms =>
    constructor
    · rw [lookupA_applyMappings_ne _ _ _ _ (fun p hp => (fieldMappings_targets _ _ hm p hp).1)]
      rfl
    · rw [lookupA_applyMappings_ne _ _ _ _ (fun p hp => (fieldMappings_targets _ _ hm p hp).2)]
      rfl

/-- C9 (amended): `normalize_event` is total and deterministic — for every
raw event dict, declared source, generated event id and fallback time it
produces exactly one normalized event (this embedding is a function; no
Python code path raises); the result always carries the `event_id`, a final
`event_type` classification, and the source tag, which is the lower-cased
declared source string itself — an unknown source only skips the
source-specific field mappings and is never re-tagged. -/
theorem normalize_event_total_and_source_tag (raw : Event) (source event_id nowIso : String) :
    lookupA (normalize_event raw source event_id nowIso) "source"
        = some (.str (pyLower source)) ∧
    lookupA (normalize_event raw source event_id nowIso) "event_id"
        = some (.str event_id) ∧
    (lookupA (normalize_event raw source event_id nowIso) "event_type").isSome = true := by
  simp only [normalize_event]
  refine ⟨?_, ?_, ?_⟩
  · rw [lookupA_setA_ne _ _ _ _ (by decide),
      lookupA_extract_common_fields_ne _ _ _ (by decide) (by decide) (by decide) (by decide)
        (by decide) (by decide)]
    exact (lookupA_normalizeMapped_base_keys raw source event_id nowIso).1
  · rw [lookupA_setA_ne _ _ _ _ (by decide),
      lookupA_extract_common_fields_ne _ _ _ (by decide) (by decide) (by decide) (by decide)
        (by decide) (by decide)]
    exact (lookupA_normalizeMapped_base_keys raw source event_id nowIso).2
  · rw [lookupA_setA_self]
    rfl

/-- C9 fails on the code in its `other`-tagging part: a source unknown to
`FIELD_MAPPINGS` keeps its lower-cased name as the source tag; it is not
tagged `other`. -/
theorem normalize_unknown_source_not_other :
    lookupA fieldMappings "customfeed" = none ∧
    lookupA (normalize_event [] "CustomFeed" "e1" "t0") "source"
        = some (.str "customfeed") ∧
    ("customfeed" : String) ≠ "other" := by
  refine ⟨rfl, rfl, by decide⟩

/-! ### Claim C10: frame effect of clearing entity state -/

/-- C10: clearing one (non-empty-string) entity key removes exactly that
entity's state, leaves every other entity's state unchanged, and never
touches the statistics counters; clearing with no key empties the whole
store, likewise leaving the counters unchanged. -/
theorem clear_entity_state_frame (eng : Engine) (ek : String) (hk : ek ≠ "")
    (hnd : (eng.entity_state.map Prod.fst).Nodup) :
    lookupA (clear_entity_state eng (some ek)).entity_state ek = none ∧
    (∀ k₂, k₂ ≠ ek →
      lookupA (clear_entity_state eng (some ek)).entity_state k₂
        = lookupA eng.entity_state k₂) ∧
    (clear_entity_state eng (some ek)).stats = eng.stats ∧
    (clear_entity_state eng none).entity_state = [] ∧
    (clear_entity_state eng none).stats = eng.stats := by
  have hne : ek.isEmpty = false := by
    cases he : ek.isEmpty
    · rfl
    · exact absurd ((String.isEmpty_iff ek).mp he) hk
  cases hs : (lookupA eng.entity_state ek).isSome with
  | true =>
    have hform : clear_entity_state eng (some ek) =
        { eng with entity_state := eraseA eng.entity_state ek } := by
      simp [clear_entity_state, hne, hs]
    refine ⟨?_, ?_, ?_, rfl, rfl⟩
    · rw [hform]
      exact lookupA_eraseA_self _ _ hnd
    · intro k₂ hk₂
      rw [hform]
      exact lookupA_eraseA_ne _ _ _ (Ne.symm hk₂)
    · rw [hform]
  | false =>
    have hnone : lookupA eng.entity_state ek = none := by
      cases h₀ : lookupA eng.entity_state ek
      · rfl
      · rw [h₀] at hs; simp at hs
    have hform : clear_entity_state eng (some ek) = eng := by
      simp [clear_entity_state, hne, hs]
    refine ⟨?_, ?_, ?_, rfl, rfl⟩
    · rw [hform]; exact hnone
    · intro k₂ hk₂; rw [hform]
    · rw [hform]

/-- Witness for C10 on a concrete two-entity engine with non-zero
statistics. -/
theorem clear_entity_state_frame_witness :
    lookupA (clear_entity_state engTwo (some "user:alice")).entity_state "user:alice" = none ∧
    (∀ k₂, k₂ ≠ "user:alice" →
      lookupA (clear_entity_state engTwo (some "user:alice")).entity_state k₂
        = lookupA engTwo.entity_state k₂) ∧
    (clear_entity_state engTwo (some "user:alice")).stats = engTwo.stats ∧
    (clear_entity_state engTwo none).entity_state = [] ∧
    (clear_entity_state engTwo none).stats = engTwo.stats :=
  clear_entity_state_frame engTwo "user:alice" (by decide) (by decide)

end Soac
